import Mathlib

/-!
Verification of the dotcube point-cloud pipeline (src/src/main.rs).

The program generates a `GRID_COUNT³` lattice of points, assigns each a
color from its grid index, rotates every point about two axes by a polar
decomposition in the relevant coordinate plane, perspective-projects it,
and draws it.  Floating-point (`f32`) arithmetic is modelled by real
arithmetic over `ℝ`; `usize` arithmetic by `ℕ` (with the same truncating
division); the fallible slice indexing `colors[color_idx]` by `getElem?`
returning an `Option`.
-/

open Real

/-- RGBA color with channels in `[0,1]`, the shallow embedding of nannou's
`Srgba` as produced by `srgba(r, g, b, a)` in `generate_colors`. -/
structure Srgba where
  r : ℝ
  g : ℝ
  b : ℝ
  a : ℝ

instance : Inhabited Srgba := ⟨⟨0, 0, 0, 0⟩⟩

/-- `const GRID_COUNT: usize = 10;` (main.rs line 16). -/
def GRID_COUNT : ℕ := 10

/-- `const GRID_PAD: f32 = 0.5 / (GRID_COUNT as f32);` (main.rs line 17),
parameterised by the grid count as in the spec's `pad = 0.5 / grid_count`. -/
noncomputable def GRID_PAD (grid_count : ℕ) : ℝ := 0.5 / (grid_count : ℝ)

/-- `const GRID_SIZE: f32 = ((GRID_COUNT - 1) as f32) * GRID_PAD;`
(main.rs line 18), parameterised by the grid count.  The subtraction is the
truncating `ℕ` subtraction, which agrees with `usize` for `grid_count ≥ 1`. -/
noncomputable def GRID_SIZE (grid_count : ℕ) : ℝ :=
  ((grid_count - 1 : ℕ) : ℝ) * GRID_PAD grid_count

/-- Rust's `dz.atan2(dy)`, i.e. the angle of the vector `(x, y)` measured
from the positive x-axis, modelled as the complex argument of `x + y·i`
(range `(-π, π]`, and `atan2 0 0 = 0`, matching `f32::atan2`). -/
noncomputable def atan2 (y x : ℝ) : ℝ := Complex.arg ⟨x, y⟩

/-- The local (pre-rotation) position of lattice point `(ix, iy, iz)`
(main.rs lines 126–128):
`x = ix * GRID_PAD - GRID_SIZE/2`, `y = iy * GRID_PAD - GRID_SIZE/2`,
`z = z_start + iz * GRID_PAD`. -/
noncomputable def localPosition (grid_count : ℕ) (z_start : ℝ) (ix iy iz : ℕ) :
    ℝ × ℝ × ℝ :=
  ((ix : ℝ) * GRID_PAD grid_count - GRID_SIZE grid_count / 2,
   (iy : ℝ) * GRID_PAD grid_count - GRID_SIZE grid_count / 2,
   z_start + (iz : ℝ) * GRID_PAD grid_count)

/-- The X-axis rotation step (main.rs lines 129–140): polar-decompose the
`(y, z)` offset from the center `(cy, cz)`, add `angle_x` to the polar angle,
and rebuild `y` and `z`; `x` is untouched. -/
noncomputable def rotateX (angle_x cy cz : ℝ) (p : ℝ × ℝ × ℝ) : ℝ × ℝ × ℝ :=
  let dy := p.2.1 - cy
  let dz := p.2.2 - cz
  let a_x := atan2 dz dy
  let m_x := Real.sqrt (dy * dy + dz * dz)
  let dy2 := Real.cos (a_x + angle_x) * m_x
  let dz2 := Real.sin (a_x + angle_x) * m_x
  (p.1, dy2 + cy, dz2 + cz)

/-- The Y-axis rotation step (main.rs lines 142–153): polar-decompose the
`(x, z)` offset from the center `(cx, cz)` (using the `z` produced by the
X-axis step), add `angle_y`, and rebuild `x` and `z`; `y` is untouched. -/
noncomputable def rotateY (angle_y cx cz : ℝ) (p : ℝ × ℝ × ℝ) : ℝ × ℝ × ℝ :=
  let dx := p.1 - cx
  let dz := p.2.2 - cz
  let a_y := atan2 dz dx
  let m_y := Real.sqrt (dx * dx + dz * dz)
  let dx2 := Real.cos (a_y + angle_y) * m_y
  let dz2 := Real.sin (a_y + angle_y) * m_y
  (dx2 + cx, p.2.1, dz2 + cz)

/-- The perspective projection (main.rs lines 155–156): `x = x / z`,
`y = y / z`, keeping the rotated depth `z` as returned at line 161.
The division is unguarded, exactly as in the source. -/
noncomputable def project (p : ℝ × ℝ × ℝ) : ℝ × ℝ × ℝ :=
  (p.1 / p.2.2, p.2.1 / p.2.2, p.2.2)

/-- The post-rotation position of lattice point `(ix, iy, iz)`: the X-axis
rotation then the Y-axis rotation, both about the center
`cx = 0, cy = 0, cz = z_start + GRID_SIZE/2` (main.rs lines 108–110,
126–153). -/
noncomputable def rotatedPoint (grid_count : ℕ) (angle_x angle_y z_start : ℝ)
    (ix iy iz : ℕ) : ℝ × ℝ × ℝ :=
  let cz := z_start + GRID_SIZE grid_count / 2
  rotateY angle_y 0 cz (rotateX angle_x 0 cz (localPosition grid_count z_start ix iy iz))

/-- The full per-point transform (main.rs lines 126–156): rotation followed
by the perspective divide. -/
noncomputable def transformPoint (grid_count : ℕ) (angle_x angle_y z_start : ℝ)
    (ix iy iz : ℕ) : ℝ × ℝ × ℝ :=
  project (rotatedPoint grid_count angle_x angle_y z_start ix iy iz)

/-- The integer color channels of lattice point `(ix, iy, iz)`
(main.rs lines 86–88): `r = (ix * 255) / grid_count` and likewise for
`g`, `b`, with truncating `usize` division modelled by `ℕ` division. -/
def colorChannels (grid_count ix iy iz : ℕ) : ℕ × ℕ × ℕ :=
  ((ix * 255) / grid_count, (iy * 255) / grid_count, (iz * 255) / grid_count)

/-- The color of lattice point `(ix, iy, iz)`: the integer channels scaled
into `[0,1]` with alpha 1 (main.rs line 89:
`srgba(r as f32 / 255.0, g as f32 / 255.0, b as f32 / 255.0, 1.0)`). -/
noncomputable def srgbaOfChannels (grid_count ix iy iz : ℕ) : Srgba :=
  let c := colorChannels grid_count ix iy iz
  ⟨(c.1 : ℝ) / 255, (c.2.1 : ℝ) / 255, (c.2.2 : ℝ) / 255, 1⟩

/-- `generate_colors` (main.rs lines 80–96): the triple nested loop over
`(ix, iy, iz)`, `iz` varying fastest, pushing one color per lattice point. -/
noncomputable def generate_colors (grid_count : ℕ) : List Srgba :=
  (List.range grid_count).flatMap fun ix =>
    (List.range grid_count).flatMap fun iy =>
      (List.range grid_count).map fun iz =>
        srgbaOfChannels grid_count ix iy iz

/-- The `coordinates` list built by `view` (main.rs lines 119–165): both
nested (parallel) iterators over `(ix, iy, iz)` collected in flattened index
order, each entry the transformed point together with the color looked up at
`color_idx = ix * grid_count * grid_count + iy * grid_count + iz` in the
color table computed at line 116.  The panicking slice index is modelled
with `getD` here; `viewPoint` below models it as a fallible `getElem?`, and
the two agree because the index is always in bounds. -/
noncomputable def coordinates (grid_count : ℕ) (angle_x angle_y z_start : ℝ) :
    List (ℝ × ℝ × ℝ × Srgba) :=
  let colors := generate_colors grid_count
  (List.range grid_count).flatMap fun ix =>
    (List.range grid_count).flatMap fun iy =>
      (List.range grid_count).map fun iz =>
        let p := transformPoint grid_count angle_x angle_y z_start ix iy iz
        let color_idx := ix * grid_count * grid_count + iy * grid_count + iz
        (p.1, p.2.1, p.2.2, colors.getD color_idx ⟨0, 0, 0, 0⟩)

/-- The body of `view`'s per-point closure for one lattice point
(main.rs lines 126–161), with the one fallible operation — the slice
indexing `view_data.colors[color_idx]` at line 159, which panics when out
of bounds — modelled as `getElem?` into `Option`. -/
noncomputable def viewPoint (grid_count : ℕ) (angle_x angle_y z_start : ℝ)
    (ix iy iz : ℕ) : Option (ℝ × ℝ × ℝ × Srgba) :=
  let p := transformPoint grid_count angle_x angle_y z_start ix iy iz
  let color_idx := ix * grid_count * grid_count + iy * grid_count + iz
  ((generate_colors grid_count)[color_idx]?).map fun color =>
    (p.1, p.2.1, p.2.2, color)

/-- The color tables freshly computed during a single invocation of `view`:
line 116 (`colors: Arc::new(generate_colors(GRID_COUNT))`) runs inside the
per-frame `view` function, so every call to `view` constructs exactly one
new table.  This trace records those constructions. -/
noncomputable def viewComputedTables (grid_count : ℕ) : List (List Srgba) :=
  [generate_colors grid_count]

/-- The color table `view` uses on frame number `frame` (main.rs line 116):
it is `generate_colors GRID_COUNT` on every frame, depending on neither the
frame number nor any mutable state, so its contents are identical across
frames. -/
noncomputable def frameColorTable (frame : ℕ) (grid_count : ℕ) : List Srgba :=
  generate_colors grid_count

/-- The mutable application state (main.rs lines 21–28), without the `ui`
handle, which belongs to the out-of-scope windowing collaborator. -/
structure Model where
  angle_x : ℝ
  angle_y : ℝ
  z_start : ℝ
  rot_speed_x : ℝ
  rot_speed_y : ℝ

/-- The per-frame state update (main.rs lines 74–78):
`angle_x += rot_speed_x * dt; angle_y += rot_speed_y * dt` with
`dt = update.since_last.as_secs_f32()`.  No wraparound or clamping. -/
noncomputable def update (model : Model) (dt : ℝ) : Model :=
  { model with
    angle_x := model.angle_x + model.rot_speed_x * dt
    angle_y := model.angle_y + model.rot_speed_y * dt }

/-- Transcribed from the spec's words (§4.2 steps 1–4), for the refinement
claim: center `cx = 0, cy = 0, cz = z_start + size/2`; X-axis rotation by
polar decomposition (`angle0 = atan2(dz, dy)`, `radius = sqrt(dy² + dz²)`,
new `dy = cos(angle0 + angle_x) * radius`, new
`dz = sin(angle0 + angle_x) * radius`); then the Y-axis rotation likewise in
the x-z plane using the `z` from step 2; then `x' = x / z`, `y' = y / z`. -/
noncomputable def spec_transform (angle_x angle_y z_start size : ℝ)
    (p : ℝ × ℝ × ℝ) : ℝ × ℝ :=
  let cx : ℝ := 0
  let cy : ℝ := 0
  let cz := z_start + size / 2
  let dy := p.2.1 - cy
  let dz := p.2.2 - cz
  let angle0 := atan2 dz dy
  let radius0 := Real.sqrt (dy ^ 2 + dz ^ 2)
  let dy2 := Real.cos (angle0 + angle_x) * radius0
  let dz2 := Real.sin (angle0 + angle_x) * radius0
  let y := dy2 + cy
  let z := dz2 + cz
  let dx := p.1 - cx
  let dz3 := z - cz
  let angle1 := atan2 dz3 dx
  let radius1 := Real.sqrt (dx ^ 2 + dz3 ^ 2)
  let dx2 := Real.cos (angle1 + angle_y) * radius1
  let dz4 := Real.sin (angle1 + angle_y) * radius1
  let x := dx2 + cx
  let z2 := dz4 + cz
  (x / z2, y / z2)

/-! ### Helper lemmas -/

theorem cos_atan2_mul_sqrt (y x : ℝ) :
    Real.cos (atan2 y x) * Real.sqrt (x * x + y * y) = x := by
  by_cases h : (⟨x, y⟩ : ℂ) = 0
  · obtain ⟨hx, hy⟩ : x = 0 ∧ y = 0 := by
      simpa [Complex.ext_iff] using h
    simp [hx, hy, atan2]
  · have habs : Complex.abs ⟨x, y⟩ = Real.sqrt (x * x + y * y) := by
      rw [Complex.abs_apply, Complex.normSq_mk]
    have hne : Real.sqrt (x * x + y * y) ≠ 0 := by
      rw [← habs]; exact Complex.abs.ne_zero h
    have hc := Complex.cos_arg h
    unfold atan2
    rw [hc, habs]
    exact div_mul_cancel₀ _ hne

theorem sin_atan2_mul_sqrt (y x : ℝ) :
    Real.sin (atan2 y x) * Real.sqrt (x * x + y * y) = y := by
  by_cases h : (⟨x, y⟩ : ℂ) = 0
  · obtain ⟨hx, hy⟩ : x = 0 ∧ y = 0 := by
      simpa [Complex.ext_iff] using h
    simp [hx, hy, atan2]
  · have habs : Complex.abs ⟨x, y⟩ = Real.sqrt (x * x + y * y) := by
      rw [Complex.abs_apply, Complex.normSq_mk]
    have hne : Real.sqrt (x * x + y * y) ≠ 0 := by
      rw [← habs]; exact Complex.abs.ne_zero h
    have hs := Complex.sin_arg (⟨x, y⟩ : ℂ)
    unfold atan2
    rw [hs, habs]
    exact div_mul_cancel₀ _ hne

theorem rotateX_zero (cy cz : ℝ) (p : ℝ × ℝ × ℝ) : rotateX 0 cy cz p = p := by
  obtain ⟨x, y, z⟩ := p
  simp only [rotateX, add_zero]
  rw [cos_atan2_mul_sqrt, sin_atan2_mul_sqrt]
  simp

theorem rotateY_zero (cx cz : ℝ) (p : ℝ × ℝ × ℝ) : rotateY 0 cx cz p = p := by
  obtain ⟨x, y, z⟩ := p
  simp only [rotateY, add_zero]
  rw [cos_atan2_mul_sqrt, sin_atan2_mul_sqrt]
  simp

theorem rotateX_add_two_pi (a cy cz : ℝ) (p : ℝ × ℝ × ℝ) :
    rotateX (a + 2 * Real.pi) cy cz p = rotateX a cy cz p := by
  obtain ⟨x, y, z⟩ := p
  simp only [rotateX]
  rw [show atan2 (z - cz) (y - cy) + (a + 2 * Real.pi) =
      atan2 (z - cz) (y - cy) + a + 2 * Real.pi from by ring,
    Real.cos_add_two_pi, Real.sin_add_two_pi]

theorem rotateY_add_two_pi (a cx cz : ℝ) (p : ℝ × ℝ × ℝ) :
    rotateY (a + 2 * Real.pi) cx cz p = rotateY a cx cz p := by
  obtain ⟨x, y, z⟩ := p
  simp only [rotateY]
  rw [show atan2 (z - cz) (x - cx) + (a + 2 * Real.pi) =
      atan2 (z - cz) (x - cx) + a + 2 * Real.pi from by ring,
    Real.cos_add_two_pi, Real.sin_add_two_pi]

theorem rotatedPoint_zero (grid_count : ℕ) (z_start : ℝ) (ix iy iz : ℕ) :
    rotatedPoint grid_count 0 0 z_start ix iy iz =
      localPosition grid_count z_start ix iy iz := by
  simp only [rotatedPoint, rotateX_zero, rotateY_zero]

theorem length_range_flatMap {α : Type} (n m : ℕ) (g : ℕ → List α)
    (h : ∀ i, (g i).length = m) :
    ((List.range n).flatMap g).length = n * m := by
  induction n with
  | zero => simp
  | succ k ih =>
      rw [List.range_succ, List.flatMap_append]
      simp [ih, h, Nat.succ_mul]

theorem getElem?_range_flatMap {α : Type} (n m i j : ℕ) (g : ℕ → List α)
    (h : ∀ i, (g i).length = m) (hi : i < n) (hj : j < m) :
    ((List.range n).flatMap g)[i * m + j]? = (g i)[j]? := by
  induction n with
  | zero => exact absurd hi (Nat.not_lt_zero i)
  | succ k ih =>
      rw [List.range_succ, List.flatMap_append]
      have hsing : ([k] : List ℕ).flatMap g = g k := by simp
      rw [hsing]
      by_cases hik : i < k
      · rw [List.getElem?_append_left]
        · exact ih hik
        · rw [length_range_flatMap k m g h]
          calc i * m + j < i * m + m := by omega
            _ = (i + 1) * m := by ring
            _ ≤ k * m := Nat.mul_le_mul_right m hik
      · have hieq : i = k := by omega
        subst hieq
        rw [List.getElem?_append_right]
        · rw [length_range_flatMap i m g h]
          congr 1
          omega
        · rw [length_range_flatMap i m g h]
          omega

theorem grid3_length {α : Type} (n : ℕ) (f : ℕ → ℕ → ℕ → α) :
    ((List.range n).flatMap fun a =>
      (List.range n).flatMap fun b =>
        (List.range n).map fun c => f a b c).length = n ^ 3 := by
  have hinner : ∀ a b : ℕ, ((List.range n).map fun c => f a b c).length = n := by
    simp
  have hmid : ∀ a : ℕ,
      ((List.range n).flatMap fun b =>
        (List.range n).map fun c => f a b c).length = n * n :=
    fun a => length_range_flatMap n n _ (hinner a)
  rw [length_range_flatMap n (n * n) _ hmid]
  ring

theorem grid3_getElem {α : Type} (n ix iy iz : ℕ) (f : ℕ → ℕ → ℕ → α)
    (hx : ix < n) (hy : iy < n) (hz : iz < n) :
    ((List.range n).flatMap fun a =>
      (List.range n).flatMap fun b =>
        (List.range n).map fun c => f a b c)[ix * n * n + iy * n + iz]? =
      some (f ix iy iz) := by
  have hinner : ∀ a b : ℕ, ((List.range n).map fun c => f a b c).length = n := by
    simp
  have hmid : ∀ a : ℕ,
      ((List.range n).flatMap fun b =>
        (List.range n).map fun c => f a b c).length = n * n :=
    fun a => length_range_flatMap n n _ (hinner a)
  have hj : iy * n + iz < n * n := by
    calc iy * n + iz < iy * n + n := by omega
      _ = (iy + 1) * n := by ring
      _ ≤ n * n := Nat.mul_le_mul_right n hy
  have hidx : ix * n * n + iy * n + iz = ix * (n * n) + (iy * n + iz) := by ring
  rw [hidx, getElem?_range_flatMap n (n * n) ix (iy * n + iz) _ hmid hx hj,
    getElem?_range_flatMap n n iy iz _ (hinner ix) hy hz,
    List.getElem?_map, List.getElem?_range hz]
  rfl

theorem generate_colors_length (n : ℕ) : (generate_colors n).length = n ^ 3 :=
  grid3_length n _

theorem generate_colors_getElem (n ix iy iz : ℕ)
    (hx : ix < n) (hy : iy < n) (hz : iz < n) :
    (generate_colors n)[ix * n * n + iy * n + iz]? =
      some (srgbaOfChannels n ix iy iz) :=
  grid3_getElem n ix iy iz _ hx hy hz

theorem coordinates_length (n : ℕ) (ax ay zs : ℝ) :
    (coordinates n ax ay zs).length = n ^ 3 := by
  simp only [coordinates]
  exact grid3_length n _

theorem coordinates_getElem (n ix iy iz : ℕ) (ax ay zs : ℝ)
    (hx : ix < n) (hy : iy < n) (hz : iz < n) :
    (coordinates n ax ay zs)[ix * n * n + iy * n + iz]? =
      some ((transformPoint n ax ay zs ix iy iz).1,
            (transformPoint n ax ay zs ix iy iz).2.1,
            (transformPoint n ax ay zs ix iy iz).2.2,
            srgbaOfChannels n ix iy iz) := by
  simp only [coordinates]
  rw [grid3_getElem n ix iy iz _ hx hy hz]
  congr 2
  rw [List.getD_eq_getElem?_getD, generate_colors_getElem n ix iy iz hx hy hz]
  rfl

theorem channel_le_254 (n i : ℕ) (hn : 1 ≤ n) (hi : i < n) : (i * 255) / n ≤ 254 := by
  have h : i * 255 / n < 255 := by
    rw [Nat.div_lt_iff_lt_mul (by omega)]
    omega
  omega

theorem spec_step_agrees (angle_x angle_y z_start size : ℝ) (p : ℝ × ℝ × ℝ) :
    ((project (rotateY angle_y 0 (z_start + size / 2)
        (rotateX angle_x 0 (z_start + size / 2) p))).1,
     (project (rotateY angle_y 0 (z_start + size / 2)
        (rotateX angle_x 0 (z_start + size / 2) p))).2.1) =
      spec_transform angle_x angle_y z_start size p := by
  obtain ⟨x, y, z⟩ := p
  simp only [project, rotateY, rotateX, spec_transform, pow_two]

/-! ### Claim theorems -/

/-- Claim C1: for every lattice point and all angles and `z_start`, the
per-point transform uses the rotation center `(0, 0, z_start + size/2)`,
applies the X-axis rotation by polar decomposition in the y-z plane, then
the Y-axis rotation in the x-z plane on the `z` produced by the X step, then
projects `x/z`, `y/z` — the two rotations sequentially in exactly this
order, and the result agrees with the spec's §4.2 formulas. -/
theorem transform_matches_spec_pipeline (grid_count ix iy iz : ℕ)
    (angle_x angle_y z_start : ℝ) :
    transformPoint grid_count angle_x angle_y z_start ix iy iz =
      project (rotateY angle_y 0 (z_start + GRID_SIZE grid_count / 2)
        (rotateX angle_x 0 (z_start + GRID_SIZE grid_count / 2)
          (localPosition grid_count z_start ix iy iz))) ∧
    ((transformPoint grid_count angle_x angle_y z_start ix iy iz).1,
     (transformPoint grid_count angle_x angle_y z_start ix iy iz).2.1) =
      spec_transform angle_x angle_y z_start (GRID_SIZE grid_count)
        (localPosition grid_count z_start ix iy iz) :=
  ⟨rfl, spec_step_agrees angle_x angle_y z_start (GRID_SIZE grid_count)
    (localPosition grid_count z_start ix iy iz)⟩

/-- Claim C2: for every `grid_count = n`, the pipeline produces exactly `n³`
points and `n³` colors, in `(ix, iy, iz)` order with `iz` fastest, and the
entry at flattened index `ix*n² + iy*n + iz` of the point list carries the
color at the same flattened index of the color list; `n = 0` yields empty
lists, not an error. -/
theorem grid_counts_and_alignment (n : ℕ) (ax ay zs : ℝ) :
    (coordinates n ax ay zs).length = n ^ 3 ∧
    (generate_colors n).length = n ^ 3 ∧
    (∀ ix iy iz : ℕ, ix < n → iy < n → iz < n →
      (coordinates n ax ay zs)[ix * n ^ 2 + iy * n + iz]? =
        some ((transformPoint n ax ay zs ix iy iz).1,
              (transformPoint n ax ay zs ix iy iz).2.1,
              (transformPoint n ax ay zs ix iy iz).2.2,
              srgbaOfChannels n ix iy iz) ∧
      (generate_colors n)[ix * n ^ 2 + iy * n + iz]? =
        some (srgbaOfChannels n ix iy iz)) ∧
    coordinates 0 ax ay zs = [] ∧ generate_colors 0 = [] := by
  refine ⟨coordinates_length n ax ay zs, generate_colors_length n, ?_, ?_, ?_⟩
  · intro ix iy iz hx hy hz
    have hidx : ix * n ^ 2 + iy * n + iz = ix * n * n + iy * n + iz := by ring
    rw [hidx]
    exact ⟨coordinates_getElem n ix iy iz ax ay zs hx hy hz,
      generate_colors_getElem n ix iy iz hx hy hz⟩
  · simp [coordinates]
  · simp [generate_colors]

theorem grid_counts_and_alignment_witness :
    (coordinates 2 0 0 1).length = 2 ^ 3 ∧
    (generate_colors 2)[1 * 2 ^ 2 + 1 * 2 + 1]? = some (srgbaOfChannels 2 1 1 1) :=
  ⟨(grid_counts_and_alignment 2 0 0 1).1,
   ((grid_counts_and_alignment 2 0 0 1).2.2.1 1 1 1 (by decide) (by decide)
     (by decide)).2⟩

/-- Claim C3: for every `n ≥ 1` and index in range, the color channels are
`r = (ix*255)/n, g = (iy*255)/n, b = (iz*255)/n` with truncating integer
division; the color carried at the point's flattened slot is independent of
the rotation angles and `z_start`; and for `n = 10` the point `(3, 7, 2)`
yields `r = 76, g = 178, b = 51`. -/
theorem color_formula_and_purity (n ix iy iz : ℕ) (hn : 1 ≤ n)
    (hx : ix < n) (hy : iy < n) (hz : iz < n) (ax ay zs : ℝ) :
    colorChannels n ix iy iz =
      ((ix * 255) / n, (iy * 255) / n, (iz * 255) / n) ∧
    ((coordinates n ax ay zs)[ix * n ^ 2 + iy * n + iz]?).map
        (fun e => e.2.2.2) = some (srgbaOfChannels n ix iy iz) ∧
    colorChannels 10 3 7 2 = (76, 178, 51) := by
  refine ⟨rfl, ?_, by decide⟩
  have hidx : ix * n ^ 2 + iy * n + iz = ix * n * n + iy * n + iz := by ring
  rw [hidx, coordinates_getElem n ix iy iz ax ay zs hx hy hz]
  rfl

theorem color_formula_and_purity_witness :
    colorChannels 10 3 7 2 = (76, 178, 51) :=
  (color_formula_and_purity 10 3 7 2 (by decide) (by decide) (by decide)
    (by decide) 0 0 0).2.2

/-- Claim C4 (counterexample): the color table is not "never recomputed per
frame" — each invocation of `view` constructs one fresh color table
(main.rs line 116), so the trace of tables computed inside a single `view`
call is nonempty. -/
theorem view_recomputes_color_table : viewComputedTables GRID_COUNT ≠ [] := by
  simp [viewComputedTables]

/-- Claim C4 (amended): although `view` recomputes the color table on every
frame, the table's contents are identical across all frames, and each
frame's per-point color assignment is exactly a lookup by flattened grid
index into that table. -/
theorem color_table_frame_invariant_lookup (f1 f2 : ℕ) (ax ay zs : ℝ)
    (ix iy iz : ℕ) (hx : ix < GRID_COUNT) (hy : iy < GRID_COUNT)
    (hz : iz < GRID_COUNT) :
    frameColorTable f1 GRID_COUNT = frameColorTable f2 GRID_COUNT ∧
    ((coordinates GRID_COUNT ax ay zs)[ix * GRID_COUNT ^ 2 + iy * GRID_COUNT + iz]?).map
        (fun e => e.2.2.2) =
      (frameColorTable f1 GRID_COUNT)[ix * GRID_COUNT ^ 2 + iy * GRID_COUNT + iz]? := by
  refine ⟨rfl, ?_⟩
  have hidx : ix * GRID_COUNT ^ 2 + iy * GRID_COUNT + iz =
      ix * GRID_COUNT * GRID_COUNT + iy * GRID_COUNT + iz := by ring
  rw [hidx, coordinates_getElem GRID_COUNT ix iy iz ax ay zs hx hy hz]
  unfold frameColorTable
  rw [generate_colors_getElem GRID_COUNT ix iy iz hx hy hz]
  rfl

theorem color_table_frame_invariant_lookup_witness :
    frameColorTable 0 GRID_COUNT = frameColorTable 1 GRID_COUNT :=
  (color_table_frame_invariant_lookup 0 1 0 0 0 0 0 0 (by decide) (by decide)
    (by decide)).1

/-- Claim C5: for every angle pair and `z_start ∈ [0,1]`, the per-point
transform is total and never fails: the one fallible operation, the color
table indexing, always succeeds, and the perspective divide is performed
unguarded — the projected coordinates are always `x/z` and `y/z` of the
rotated point, with no branch excluding `z = 0` (in the real-number model
the division is total; in `f32` it yields infinity or NaN, not an error). -/
theorem transform_total_unguarded (n ix iy iz : ℕ) (ax ay zs : ℝ)
    (hzs0 : 0 ≤ zs) (hzs1 : zs ≤ 1)
    (hx : ix < n) (hy : iy < n) (hz : iz < n) :
    viewPoint n ax ay zs ix iy iz =
      some ((transformPoint n ax ay zs ix iy iz).1,
            (transformPoint n ax ay zs ix iy iz).2.1,
            (transformPoint n ax ay zs ix iy iz).2.2,
            srgbaOfChannels n ix iy iz) ∧
    transformPoint n ax ay zs ix iy iz =
      ((rotatedPoint n ax ay zs ix iy iz).1 /
        (rotatedPoint n ax ay zs ix iy iz).2.2,
       (rotatedPoint n ax ay zs ix iy iz).2.1 /
        (rotatedPoint n ax ay zs ix iy iz).2.2,
       (rotatedPoint n ax ay zs ix iy iz).2.2) := by
  constructor
  · simp only [viewPoint]
    rw [generate_colors_getElem n ix iy iz hx hy hz]
    rfl
  · rfl

theorem transform_total_unguarded_witness :
    viewPoint 10 0 0 (1 / 2) 3 7 2 =
      some ((transformPoint 10 0 0 (1 / 2) 3 7 2).1,
            (transformPoint 10 0 0 (1 / 2) 3 7 2).2.1,
            (transformPoint 10 0 0 (1 / 2) 3 7 2).2.2,
            srgbaOfChannels 10 3 7 2) :=
  (transform_total_unguarded 10 3 7 2 0 0 (1 / 2) (by norm_num) (by norm_num)
    (by decide) (by decide) (by decide)).1

/-- Claim C6: with `angle_x = angle_y = 0`, the post-rotation `(x, y, z)` of
every lattice point equals its pre-rotation local position, exactly in real
arithmetic. -/
theorem identity_rotation_noop (grid_count : ℕ) (z_start : ℝ) (ix iy iz : ℕ) :
    rotatedPoint grid_count 0 0 z_start ix iy iz =
      localPosition grid_count z_start ix iy iz :=
  rotatedPoint_zero grid_count z_start ix iy iz

/-- Claim C7: adding `2π` to either angle leaves every point's post-rotation
`(x, y, z)` unchanged, exactly in real arithmetic. -/
theorem rotation_two_pi_periodic (grid_count : ℕ) (ax ay z_start : ℝ)
    (ix iy iz : ℕ) :
    rotatedPoint grid_count (ax + 2 * Real.pi) ay z_start ix iy iz =
      rotatedPoint grid_count ax ay z_start ix iy iz ∧
    rotatedPoint grid_count ax (ay + 2 * Real.pi) z_start ix iy iz =
      rotatedPoint grid_count ax ay z_start ix iy iz := by
  constructor
  · simp only [rotatedPoint, rotateX_add_two_pi]
  · simp only [rotatedPoint, rotateY_add_two_pi]

/-- Claim C8: the per-frame update sets `angle_x := angle_x + rot_speed_x*dt`
and `angle_y := angle_y + rot_speed_y*dt` with no wraparound, clamping or
other modification of the state; starting from `angle_x = 0` with
`rot_speed_x = π/2`, three consecutive frames of `dt = 1` accumulate
`angle_x = 3π/2`. -/
theorem angle_update_accumulates (m : Model) (dt : ℝ) :
    (update m dt).angle_x = m.angle_x + m.rot_speed_x * dt ∧
    (update m dt).angle_y = m.angle_y + m.rot_speed_y * dt ∧
    (update m dt).z_start = m.z_start ∧
    (update m dt).rot_speed_x = m.rot_speed_x ∧
    (update m dt).rot_speed_y = m.rot_speed_y ∧
    (m.angle_x = 0 → m.rot_speed_x = Real.pi / 2 →
      (update (update (update m 1) 1) 1).angle_x = 3 * Real.pi / 2) := by
  refine ⟨rfl, rfl, rfl, rfl, rfl, ?_⟩
  intro h1 h2
  simp only [update]
  rw [h1, h2]
  ring

theorem angle_update_accumulates_witness :
    (update (update (update ⟨0, 0, 2 / 5, Real.pi / 2, Real.pi / 2⟩ 1) 1) 1).angle_x =
      3 * Real.pi / 2 :=
  (angle_update_accumulates ⟨0, 0, 2 / 5, Real.pi / 2, Real.pi / 2⟩ 1).2.2.2.2.2
    rfl rfl

/-- Claim C9: with `grid_count = 2`, `z_start = 1/2` and zero angles,
exactly 8 points are produced, `pad = 1/4` and `size = 1/4`, point
`(0,0,0)` has local position `(-1/8, -1/8, 1/2)`, and it projects to
exactly `x = -1/4, y = -1/4`. -/
theorem scenario_grid2 :
    (coordinates 2 0 0 (1 / 2)).length = 8 ∧
    GRID_PAD 2 = 1 / 4 ∧ GRID_SIZE 2 = 1 / 4 ∧
    localPosition 2 (1 / 2) 0 0 0 = (-(1 / 8), -(1 / 8), 1 / 2) ∧
    transformPoint 2 0 0 (1 / 2) 0 0 0 = (-(1 / 4), -(1 / 4), 1 / 2) := by
  have hpad : GRID_PAD 2 = 1 / 4 := by
    unfold GRID_PAD; norm_num
  have hsize : GRID_SIZE 2 = 1 / 4 := by
    unfold GRID_SIZE; rw [hpad]; norm_num
  have hloc : localPosition 2 (1 / 2) 0 0 0 = (-(1 / 8), -(1 / 8), 1 / 2) := by
    unfold localPosition; rw [hpad, hsize]; norm_num
  refine ⟨?_, hpad, hsize, hloc, ?_⟩
  · rw [coordinates_length]; norm_num
  · unfold transformPoint
    rw [rotatedPoint_zero, hloc]
    unfold project
    norm_num

/-- Claim C10: for every `n ≥ 1` and every in-range index, each integer
color channel `(i*255)/n` is at most 254 — no channel ever reaches full
intensity 255, so pure white is never produced — and the point `(0,0,0)` is
always black. -/
theorem color_channels_never_full (n ix iy iz : ℕ) (hn : 1 ≤ n)
    (hx : ix < n) (hy : iy < n) (hz : iz < n) :
    (colorChannels n ix iy iz).1 ≤ 254 ∧
    (colorChannels n ix iy iz).2.1 ≤ 254 ∧
    (colorChannels n ix iy iz).2.2 ≤ 254 ∧
    colorChannels n 0 0 0 = (0, 0, 0) := by
  refine ⟨channel_le_254 n ix hn hx, channel_le_254 n iy hn hy,
    channel_le_254 n iz hn hz, ?_⟩
  simp [colorChannels]

theorem color_channels_never_full_witness :
    (colorChannels 10 9 9 9).1 ≤ 254 :=
  (color_channels_never_full 10 9 9 9 (by decide) (by decide) (by decide)
    (by decide)).1
